import Mathlib

/-!
Verification of the pinglink ring-history and incremental renderer core.

Shallow embedding of:
  * `src/utils/color-schemes.ts`  (categorizeLatency, COLOR_SCHEMES, RESET_COLOR)
  * `src/utils/dot-history.ts`    (class DotHistory)
  * `src/utils/terminal-control.ts` (TerminalControl string builders)
  * `src/ui/simple-graph-renderer.ts` (renderIncrementalUpdate, grid-paint part)

JavaScript numbers are embedded as `Nat` for counters and dimensions and as
`Option ℚ` for the optional latency.  All theorems about append/position
behaviour carry the hypotheses `1 ≤ width`, `1 ≤ height` (hence capacity ≥ 1)
under which Nat `%` and `/` agree with the JavaScript arithmetic executed by
the source; the `capacity = 0` / `writeCount = 0` corners, where JavaScript
would produce `NaN` resp. `-1`, lie outside every theorem's hypotheses (the
sole claim touching `capacity = 0` concerns only the constructor and resize
field assignments, which involve no modular arithmetic).
-/

namespace PingLink

/-- The six latency categories of `LatencyCategory` in `src/types/index.ts`. -/
inductive LatencyCategory where
  | excellent
  | good
  | fair
  | poor
  | veryPoor
  | failed
deriving DecidableEq, Repr

/-- The relevant fields of `PingResult` (`src/types/index.ts`); the JS `Date`
timestamp is embedded as a `Nat`, the optional float latency as `Option ℚ`. -/
structure PingResult where
  timestamp : Nat
  host : String
  success : Bool
  latency : Option ℚ
  error : Option String
deriving DecidableEq, Repr

/-- `categorizeLatency` from `src/utils/color-schemes.ts`: `undefined` maps to
`FAILED`, then ascending threshold tests at 50, 100, 200, 500. -/
def categorizeLatency : Option ℚ → LatencyCategory
  | none => .failed
  | some latency =>
    if latency < 50 then .excellent
    else if latency < 100 then .good
    else if latency < 200 then .fair
    else if latency < 500 then .poor
    else .veryPoor

/-- `RESET_COLOR` from `src/utils/color-schemes.ts`. -/
def RESET_COLOR : String := "\x1b[0m"

/-- The `default` entry of `COLOR_SCHEMES` (`src/utils/color-schemes.ts`),
as the color-escape map used by `DotHistory.precomputeGlyphs`. -/
def defaultColor : LatencyCategory → String
  | .excellent => "\x1b[32m"
  | .good => "\x1b[33m"
  | .fair => "\x1b[38;5;208m"
  | .poor => "\x1b[31m"
  | .veryPoor => "\x1b[35m"
  | .failed => "\x1b[37m"

/-- The `glyphMap` of `DotHistory.precomputeGlyphs` (`src/utils/dot-history.ts`). -/
def glyphMap : LatencyCategory → String
  | .excellent => "·"
  | .good => "∙"
  | .fair => "▪"
  | .poor => "■"
  | .veryPoor => "■"
  | .failed => "□"

/-- The `precomputedGlyphs` map of `DotHistory`: for every category the string
`color ++ glyph ++ RESET_COLOR` (built in `precomputeGlyphs`).  The map holds
an entry for every category, so the `.get(category) || '?'` read in `addPing`
never takes its fallback. -/
def precomputedGlyphs (category : LatencyCategory) : String :=
  defaultColor category ++ glyphMap category ++ RESET_COLOR

/-- The character class `[·∙▪■□]` of the regex in `DotHistory.addPing`. -/
def glyphChars : List Char := ['·', '∙', '▪', '■', '□']

/-- The regex read `coloredGlyph.match(/[·∙▪■□]/)?.[0]` of `DotHistory.addPing`:
the first character of the string belonging to the glyph character class. -/
def firstGlyphChar (s : String) : Option Char :=
  s.toList.find? (fun c => glyphChars.contains c)

/-- A stored `Dot` (`src/utils/dot-history.ts`). -/
structure Dot where
  char : String
  colorCode : String
  ping : PingResult
deriving DecidableEq, Repr

/-- The category computation at the head of `DotHistory.addPing`
(`ping.success ? categorizeLatency(ping.latency) : LatencyCategory.FAILED`). -/
def classify (success : Bool) (latency : Option ℚ) : LatencyCategory :=
  if success then categorizeLatency latency else .failed

/-- The `Dot` value built by `DotHistory.addPing` for a given ping. -/
def buildDot (ping : PingResult) : Dot :=
  let category := classify ping.success ping.latency
  let coloredGlyph := precomputedGlyphs category
  let char :=
    match firstGlyphChar coloredGlyph with
    | some c => String.mk [c]
    | none => "?"
  { char := char, colorCode := coloredGlyph, ping := ping }

/-- State of a `DotHistory` (`src/utils/dot-history.ts`).  The backing JS array
`history` (allocated with holes by `new Array(capacity)`) is embedded as a
total function to `Option Dot`, `none` standing for a hole. -/
structure DotHistory where
  graphWidth : Nat
  graphHeight : Nat
  capacity : Nat
  writeCount : Nat
  history : Nat → Option Dot

/-- The `DotHistory` constructor: stores the dimensions as given, sets
`capacity = width * height`, allocates an all-hole backing array, and leaves
`writeCount` at 0.  No validation of the dimensions is performed. -/
def mkDotHistory (width height : Nat) : DotHistory :=
  { graphWidth := width
    graphHeight := height
    capacity := width * height
    writeCount := 0
    history := fun _ => none }

/-- The JS assignment `history[index] = dot`. -/
def writeSlot (h : Nat → Option Dot) (index : Nat) (dot : Dot) : Nat → Option Dot :=
  fun j => if j = index then some dot else h j

/-- The two store statements shared by `addPing` and the `resize` loop:
`history[writeCount % capacity] = dot; writeCount++`. -/
def writeDot (s : DotHistory) (dot : Dot) : DotHistory :=
  { s with
    history := writeSlot s.history (s.writeCount % s.capacity) dot
    writeCount := s.writeCount + 1 }

/-- `DotHistory.addPing`: build the dot, store it at slot
`writeCount % capacity`, increment `writeCount`, and return the dot. -/
def addPing (s : DotHistory) (ping : PingResult) : DotHistory × Dot :=
  let dot := buildDot ping
  (writeDot s dot, dot)

/-- The `(col, row, justWrapped)` record returned by
`DotHistory.getCurrentPosition`. -/
structure Position where
  col : Nat
  row : Nat
  justWrapped : Bool
deriving DecidableEq, Repr

/-- `DotHistory.getCurrentPosition`:
`col = (writeCount-1) % graphWidth`,
`row = floor((writeCount-1) / graphWidth) % graphHeight`,
`justWrapped = (col === graphWidth - 1 && writeCount > 1)`. -/
def getCurrentPosition (s : DotHistory) : Position :=
  let col := (s.writeCount - 1) % s.graphWidth
  let row := ((s.writeCount - 1) / s.graphWidth) % s.graphHeight
  let justWrapped := decide (col = s.graphWidth - 1 ∧ 1 < s.writeCount)
  { col := col, row := row, justWrapped := justWrapped }

/-- `DotHistory.getLastDots(count)`: `actualCount = min(count, writeCount,
capacity)`; then the loop `for (i = actualCount-1; i >= 0; i--)` reads slot
`(writeCount - 1 - i) % capacity` and, when the slot is not a hole,
`unshift`s it onto the front of the result.  The loop runs i downwards, so it
is embedded as a left fold over the reversed index range with cons-at-front
as the `unshift`. -/
def getLastDots (s : DotHistory) (count : Nat) : List Dot :=
  let actualCount := min count (min s.writeCount s.capacity)
  (List.range actualCount).reverse.foldl
    (fun result i =>
      match s.history ((s.writeCount - 1 - i) % s.capacity) with
      | some d => d :: result
      | none => result)
    []

/-- `DotHistory.getAllDots()`: `getLastDots(capacity)`. -/
def getAllDots (s : DotHistory) : List Dot :=
  getLastDots s s.capacity

/-- `DotHistory.resize(newWidth, newHeight)`: snapshot the old dots, install
the new dimensions and a fresh all-hole array with `writeCount = 0`, compute
`dotsToKeep = min(oldDots.length, capacity)` and
`startIndex = max(0, oldDots.length - dotsToKeep)` (a plain Nat subtraction,
since `dotsToKeep ≤ oldDots.length`), then re-store `oldDots[startIndex ..]`
in array order through the same store statements as `addPing`. -/
def resize (s : DotHistory) (newWidth newHeight : Nat) : DotHistory :=
  let oldDots := getAllDots s
  let cleared : DotHistory :=
    { graphWidth := newWidth
      graphHeight := newHeight
      capacity := newWidth * newHeight
      writeCount := 0
      history := fun _ => none }
  let dotsToKeep := min oldDots.length cleared.capacity
  let startIndex := oldDots.length - dotsToKeep
  (oldDots.drop startIndex).foldl writeDot cleared

/-- `DotHistory.clear()`: reallocate the backing array (all holes) and reset
`writeCount` to 0; dimensions and capacity are untouched. -/
def clear (s : DotHistory) : DotHistory :=
  { s with history := fun _ => none, writeCount := 0 }

/-- `DotHistory.getCapacity()`. -/
def getCapacity (s : DotHistory) : Nat :=
  s.capacity

/-- `DotHistory.getDimensions()`. -/
def getDimensions (s : DotHistory) : Nat × Nat :=
  (s.graphWidth, s.graphHeight)

/-- Folding a sequence of pings through `addPing` (the renderer feeds one
sample at a time into `addPingResult`, which calls `dotHistory.addPing`). -/
def addPings (s : DotHistory) (ps : List PingResult) : DotHistory :=
  ps.foldl (fun st p => (addPing st p).1) s

/-- The state of a freshly constructed `DotHistory` after appending the
samples `ps` in order. -/
def afterPings (width height : Nat) (ps : List PingResult) : DotHistory :=
  addPings (mkDotHistory width height) ps

/-- `TerminalControl.moveTo(row, col)` (`src/utils/terminal-control.ts`):
the escape sequence `ESC[row;colH`. -/
def moveTo (row col : Nat) : String :=
  "\x1b[" ++ toString row ++ ";" ++ toString col ++ "H"

/-- `TerminalControl.setScrollRegion(top, bottom)`: `ESC[top;bottomr`. -/
def setScrollRegion (top bottom : Nat) : String :=
  "\x1b[" ++ toString top ++ ";" ++ toString bottom ++ "r"

/-- `TerminalControl.scrollUp(lines)`: `ESC[linesS`. -/
def scrollUp (lines : Nat) : String :=
  "\x1b[" ++ toString lines ++ "S"

/-- The renderer fields read by `renderIncrementalUpdate`
(`src/ui/simple-graph-renderer.ts`): the fixed header offset `graphTop`, the
grid height `graphHeight`, and the owned `dotHistory`. -/
structure SimpleGraphRenderer where
  graphTop : Nat
  graphHeight : Nat
  dotHistory : DotHistory

/-- The grid-paint output string assembled by
`SimpleGraphRenderer.renderIncrementalUpdate` (lines 125-148) for the dot just
appended: read `writeCount = dotHistory.getWriteCount()` and
`(col, row, justWrapped) = dotHistory.getCurrentPosition()`; if
`writeCount <= capacity`, move to `(graphTop + row, col + 1)` and paint; else
if `col === 0 && writeCount > capacity`, set the scroll region to the grid
rows, scroll up by one, move to the bottom grid row column 1, and paint; else
move to the bottom grid row column `col + 1` and paint.  (The subsequent
`renderLatestPing` call repaints a fixed status line and is separate from the
grid paint.) -/
def renderIncrementalUpdate (r : SimpleGraphRenderer) (dot : Dot) : String :=
  let writeCount := r.dotHistory.writeCount
  let p := getCurrentPosition r.dotHistory
  if writeCount ≤ getCapacity r.dotHistory then
    moveTo (r.graphTop + p.row) (p.col + 1) ++ dot.colorCode
  else
    if p.col = 0 ∧ getCapacity r.dotHistory < writeCount then
      setScrollRegion r.graphTop (r.graphTop + r.graphHeight - 1) ++
        scrollUp 1 ++
        moveTo (r.graphTop + r.graphHeight - 1) 1 ++
        dot.colorCode
    else
      moveTo (r.graphTop + r.graphHeight - 1) (p.col + 1) ++ dot.colorCode

/-- The sequence of `(col, row, justWrapped)` positions observed after each
append of a sample list, in order: after each `addPing` the renderer reads
`getCurrentPosition()`. -/
def positionTrace (s : DotHistory) : List PingResult → List Position
  | [] => []
  | p :: rest =>
    let s2 := (addPing s p).1
    getCurrentPosition s2 :: positionTrace s2 rest

/-- `getCurrentPosition` of the state holding write count `n` in a grid of the
given dimensions; `getCurrentPosition` reads only `writeCount`, `graphWidth`
and `graphHeight`, so the backing array is irrelevant. -/
def positionFor (width height n : Nat) : Position :=
  getCurrentPosition
    { graphWidth := width, graphHeight := height, capacity := width * height
      writeCount := n, history := fun _ => none }

/-- A successful concrete sample with latency 10 ms. -/
def pingOkA : PingResult :=
  { timestamp := 0, host := "example.com", success := true
    latency := some 10, error := none }

/-- A successful concrete sample with latency 60 ms. -/
def pingOkB : PingResult :=
  { timestamp := 1, host := "example.com", success := true
    latency := some 60, error := none }

/-- A failed concrete sample. -/
def pingFail : PingResult :=
  { timestamp := 2, host := "example.com", success := false
    latency := none, error := some "TIMEOUT" }

/-- Appending preserves the dimensions and capacity and advances the write
count by the number of samples appended. -/
theorem addPings_fields (ps : List PingResult) (s : DotHistory) :
    (addPings s ps).graphWidth = s.graphWidth ∧
    (addPings s ps).graphHeight = s.graphHeight ∧
    (addPings s ps).capacity = s.capacity ∧
    (addPings s ps).writeCount = s.writeCount + ps.length := by
  induction ps generalizing s with
  | nil => exact ⟨rfl, rfl, rfl, rfl⟩
  | cons p rest ih =>
    obtain ⟨h1, h2, h3, h4⟩ := ih (writeDot s (buildDot p))
    refine ⟨h1, h2, h3, ?_⟩
    rw [show addPings s (p :: rest) = addPings (writeDot s (buildDot p)) rest from rfl, h4]
    simp [writeDot]
    omega

/-- The position trace depends only on the write count and the dimensions of
the starting state. -/
theorem positionTrace_congr (s1 s2 : DotHistory) (h1 : s1.writeCount = s2.writeCount)
    (h2 : s1.graphWidth = s2.graphWidth) (h3 : s1.graphHeight = s2.graphHeight) :
    ∀ ps : List PingResult, positionTrace s1 ps = positionTrace s2 ps := by
  intro ps
  induction ps generalizing s1 s2 with
  | nil => rfl
  | cons p rest ih =>
    simp only [positionTrace]
    congr 1
    · simp [getCurrentPosition, addPing, writeDot, h1, h2, h3]
    · exact ih _ _ (by simp [addPing, writeDot, h1]) h2 h3

/-- Claim C1, counterexample: in a 3-by-2 grid (capacity 6) after 3 appended
samples, `getCurrentPosition().justWrapped` is `true`, while the claimed
characterization `n > C and (n-1) mod width == 0` is false at `n = 3`
(`3 ≤ 6` and `(3-1) mod 3 = 2`), so the claimed equivalence fails. -/
theorem justWrapped_spec_false_at_three :
    ¬ ((getCurrentPosition (afterPings 3 2 [pingOkA, pingOkB, pingFail])).justWrapped = true ↔
        (3 * 2 < 3 ∧ (3 - 1) % 3 = 0)) := by
  decide

/-- Claim C1, amended: for every DotHistory constructed with width `w ≥ 1` and
height `h` and `n ≥ 1` appended samples, the `justWrapped` flag returned by
`getCurrentPosition` is true if and only if `n ≥ 2` and `(n-1) mod w = w - 1`
(the write landed in the last column); it does not depend on the capacity. -/
theorem justWrapped_iff_last_column (w h : Nat) (ps : List PingResult)
    (_hw : 1 ≤ w) (_hn : 1 ≤ ps.length) :
    (getCurrentPosition (afterPings w h ps)).justWrapped = true ↔
      ((ps.length - 1) % w = w - 1 ∧ 1 < ps.length) := by
  obtain ⟨h1, h2, h3, h4⟩ := addPings_fields ps (mkDotHistory w h)
  simp only [getCurrentPosition, afterPings, decide_eq_true_eq]
  rw [h1, h4]
  simp [mkDotHistory]

/-- Witness for the amended claim C1 at a 3-by-2 grid with 3 samples. -/
theorem justWrapped_iff_last_column_witness :
    (getCurrentPosition (afterPings 3 2 [pingOkA, pingOkB, pingFail])).justWrapped = true ↔
      ((3 : Nat) - 1) % 3 = 3 - 1 ∧ 1 < 3 :=
  justWrapped_iff_last_column 3 2 [pingOkA, pingOkB, pingFail] (by decide) (by decide)

/-- Claim C3, evaluation at the failing input: in a 2-by-1 grid, after
appending the two distinct samples `pingOkA` then `pingOkB`, `getAllDots()`
returns the dots newest first (`[dot pingOkB, dot pingOkA]`), not in the
claimed chronological (oldest-first) order. -/
theorem getAllDots_newest_first_at_two :
    getAllDots (afterPings 2 1 [pingOkA, pingOkB]) = [buildDot pingOkB, buildDot pingOkA] ∧
    [buildDot pingOkB, buildDot pingOkA] ≠ [buildDot pingOkA, buildDot pingOkB] := by
  decide

/-- Claim C4, evaluation at the failing input: in a 3-by-1 grid holding the
three chronological dots of `pingOkA, pingOkB, pingFail`, `resize(2, 1)`
(new capacity 2 < 3) leaves a snapshot of the two OLDEST dots
`[dot pingOkA, dot pingOkB]`, not the claimed two most recent
`[dot pingOkB, dot pingFail]`. -/
theorem resize_keeps_oldest_at_shrink :
    getAllDots (resize (afterPings 3 1 [pingOkA, pingOkB, pingFail]) 2 1) =
      [buildDot pingOkA, buildDot pingOkB] ∧
    [buildDot pingOkA, buildDot pingOkB] ≠ [buildDot pingOkB, buildDot pingFail] := by
  decide

/-- Claim C5, counterexample: constructing a DotHistory with width 0 raises no
error and yields `capacity = 0`, so construction with a zero dimension does
not fail and `capacity ≥ 1` is not an invariant of constructed DotHistories. -/
theorem capacity_zero_at_zero_width :
    (mkDotHistory 0 5).capacity = 0 ∧ ¬ (1 ≤ (mkDotHistory 0 5).capacity) := by
  decide

/-- Claim C5, amended: neither the constructor nor `resize` validates the
dimensions; with width 0 or height 0 no error is raised, the dimensions are
stored exactly as given (never clamped), the capacity becomes
`width * height = 0`, and the resulting history is empty. -/
theorem constructor_resize_no_validation (w h : Nat) (s : DotHistory)
    (hzero : w = 0 ∨ h = 0) :
    (mkDotHistory w h).graphWidth = w ∧
    (mkDotHistory w h).graphHeight = h ∧
    (mkDotHistory w h).capacity = 0 ∧
    (resize s w h).graphWidth = w ∧
    (resize s w h).graphHeight = h ∧
    (resize s w h).capacity = 0 ∧
    (resize s w h).writeCount = 0 := by
  have hcap : w * h = 0 := by
    rcases hzero with h0 | h0 <;> simp [h0]
  have hres : resize s w h =
      { graphWidth := w, graphHeight := h, capacity := w * h
        writeCount := 0, history := fun _ => none } := by
    unfold resize
    simp only [hcap, Nat.min_zero, Nat.sub_zero, List.drop_length, List.foldl_nil]
  refine ⟨rfl, rfl, by simp [mkDotHistory, hcap], ?_, ?_, ?_, ?_⟩ <;>
    simp [hres, hcap]

/-- Witness for the amended claim C5 at width 0, height 5, starting from a
3-by-2 DotHistory. -/
theorem constructor_resize_no_validation_witness :
    (mkDotHistory 0 5).graphWidth = 0 ∧
    (mkDotHistory 0 5).graphHeight = 5 ∧
    (mkDotHistory 0 5).capacity = 0 ∧
    (resize (mkDotHistory 3 2) 0 5).graphWidth = 0 ∧
    (resize (mkDotHistory 3 2) 0 5).graphHeight = 5 ∧
    (resize (mkDotHistory 3 2) 0 5).capacity = 0 ∧
    (resize (mkDotHistory 3 2) 0 5).writeCount = 0 :=
  constructor_resize_no_validation 0 5 (mkDotHistory 3 2) (Or.inl rfl)

/-- Claim C7, counterexample: the defined latency 50 lies exactly on the
50 ms threshold separating `excellent` (the smaller-latency category) from
`good`; the classifier assigns it to `good`, not to the lower category. -/
theorem boundary_fifty_not_lower :
    categorizeLatency (some 50) = LatencyCategory.good ∧
    categorizeLatency (some 50) ≠ LatencyCategory.excellent := by
  decide

/-- Claim C7, amended: every defined latency lying exactly on a classification
threshold (50, 100, 200, 500) is assigned to the HIGHER (larger-latency) of
the two categories the boundary separates, i.e. the category whose interval
has that threshold as its inclusive lower bound. -/
theorem boundary_values_to_higher_category :
    categorizeLatency (some 50) = LatencyCategory.good ∧
    categorizeLatency (some 100) = LatencyCategory.fair ∧
    categorizeLatency (some 200) = LatencyCategory.poor ∧
    categorizeLatency (some 500) = LatencyCategory.veryPoor := by
  decide

/-- Claim C9: from any DotHistory state, `clear()` followed by appending any
sample list yields, append by append, the same `(col, row, justWrapped)`
sequence as appending the same samples to a freshly constructed DotHistory of
the same dimensions. -/
theorem clear_then_append_positions_eq_fresh (s : DotHistory) (ps : List PingResult) :
    positionTrace (clear s) ps =
      positionTrace (mkDotHistory s.graphWidth s.graphHeight) ps :=
  positionTrace_congr (clear s) (mkDotHistory s.graphWidth s.graphHeight) rfl rfl rfl ps

/-- Claim C10: `clear()` resets the write count to 0 and leaves the capacity
and the dimensions reported by `getCapacity()` and `getDimensions()`
unchanged. -/
theorem clear_frame_effect (s : DotHistory) :
    (clear s).writeCount = 0 ∧
    getCapacity (clear s) = getCapacity s ∧
    getDimensions (clear s) = getDimensions s :=
  ⟨rfl, rfl, rfl⟩

/-- Claim C6: classification is total; the category computed by `addPing` is
`failed` exactly when the sample failed or carries no latency, and for a
successful sample with defined latency the ladder is half-open:
`excellent` on `[0, 50)`, `good` on `[50, 100)`, `fair` on `[100, 200)`,
`poor` on `[200, 500)`, `veryPoor` on `[500, ∞)` (so 49.9 is excellent,
50 is good, 100 is fair). -/
theorem classify_total_characterization :
    (∀ (success : Bool) (lat : Option ℚ),
        classify success lat = LatencyCategory.failed ↔ (success = false ∨ lat = none)) ∧
    (∀ l : ℚ,
        (classify true (some l) = LatencyCategory.excellent ↔ l < 50) ∧
        (classify true (some l) = LatencyCategory.good ↔ 50 ≤ l ∧ l < 100) ∧
        (classify true (some l) = LatencyCategory.fair ↔ 100 ≤ l ∧ l < 200) ∧
        (classify true (some l) = LatencyCategory.poor ↔ 200 ≤ l ∧ l < 500) ∧
        (classify true (some l) = LatencyCategory.veryPoor ↔ 500 ≤ l)) := by
  constructor
  · intro success lat
    cases success with
    | false => simp [classify]
    | true =>
      cases lat with
      | none => simp [classify, categorizeLatency]
      | some l =>
        simp only [classify, if_true, categorizeLatency]
        split_ifs <;> simp
  · intro l
    simp only [classify, if_true, categorizeLatency]
    split_ifs with h1 h2 h3 h4 <;>
      refine ⟨?_, ?_, ?_, ?_, ?_⟩ <;>
      constructor <;>
      intro hx <;>
      first
        | rfl
        | (exact absurd hx (by decide))
        | (exact ⟨by linarith, by linarith⟩)
        | linarith

/-- Claim C2: in interactive mode, for the append that brings the write count
to `n` in a `w`-by-`h` grid (capacity `w*h`), the grid-paint output of
`renderIncrementalUpdate` is exactly: a cursor move to row `graphTop + row`,
column `col + 1` followed by the colored glyph when `n ≤ capacity` (no scroll
sequence); a set-scroll-region over the grid rows, a scroll-up-by-1, a move to
the bottom grid row column 1, then the glyph when `n > capacity` and
`(n-1) mod w = 0`; and a move to the bottom grid row column `col + 1` then the
glyph, with no scroll, when `n > capacity` and `(n-1) mod w ≠ 0`. -/
theorem renderIncrementalUpdate_cases
    (gt gh w h n : Nat) (hist : Nat → Option Dot) (d : Dot)
    (_hw : 1 ≤ w) (_hh : 1 ≤ h) (_hn : 1 ≤ n) :
    (n ≤ w * h →
      renderIncrementalUpdate
          ⟨gt, gh, ⟨w, h, w * h, n, hist⟩⟩ d =
        moveTo (gt + ((n - 1) / w) % h) ((n - 1) % w + 1) ++ d.colorCode) ∧
    (w * h < n → (n - 1) % w = 0 →
      renderIncrementalUpdate
          ⟨gt, gh, ⟨w, h, w * h, n, hist⟩⟩ d =
        setScrollRegion gt (gt + gh - 1) ++ scrollUp 1 ++
          moveTo (gt + gh - 1) 1 ++ d.colorCode) ∧
    (w * h < n → (n - 1) % w ≠ 0 →
      renderIncrementalUpdate
          ⟨gt, gh, ⟨w, h, w * h, n, hist⟩⟩ d =
        moveTo (gt + gh - 1) ((n - 1) % w + 1) ++ d.colorCode) := by
  refine ⟨?_, ?_, ?_⟩
  · intro hle
    simp [renderIncrementalUpdate, getCurrentPosition, getCapacity, hle]
  · intro hgt hcol
    have hnle : ¬ (n ≤ w * h) := by omega
    simp [renderIncrementalUpdate, getCurrentPosition, getCapacity, hnle, hcol, hgt]
  · intro hgt hcol
    have hnle : ¬ (n ≤ w * h) := by omega
    simp [renderIncrementalUpdate, getCurrentPosition, getCapacity, hnle, hcol, hgt]

/-- Witness for claim C2: a 3-by-2 grid with header offset 6, write count 7
(first wraparound write): the output is scroll-region set, scroll up, move to
the bottom grid row column 1, then the glyph. -/
theorem renderIncrementalUpdate_cases_witness :
    renderIncrementalUpdate
        ⟨6, 2, ⟨3, 2, 3 * 2, 7, fun _ => none⟩⟩ (buildDot pingOkA) =
      setScrollRegion 6 (6 + 2 - 1) ++ scrollUp 1 ++
        moveTo (6 + 2 - 1) 1 ++ (buildDot pingOkA).colorCode :=
  (renderIncrementalUpdate_cases 6 2 3 2 7 (fun _ => none) (buildDot pingOkA)
    (by decide) (by decide) (by decide)).2.1 (by decide) (by decide)

/-- Claim C8: in a `w`-by-`h` grid with `1 ≤ w` and `1 ≤ h`, for every write
count `n` with `1 ≤ n ≤ w*h` the derived position is
`col = (n-1) mod w`, `row = floor((n-1)/w) mod h`, with row-major linear index
`row * w + col = n - 1` (so `n = 1` lands at `(0,0)` and positions advance in
row-major order); and every `(col, row)` pair of the grid is visited by
exactly one such `n`. -/
theorem position_row_major_bijection (w h : Nat) (hw : 1 ≤ w) (_hh : 1 ≤ h) :
    (∀ n, 1 ≤ n → n ≤ w * h →
      (positionFor w h n).col = (n - 1) % w ∧
      (positionFor w h n).row = ((n - 1) / w) % h ∧
      (positionFor w h n).row * w + (positionFor w h n).col = n - 1) ∧
    (∀ c r, c < w → r < h →
      ∃! n, (1 ≤ n ∧ n ≤ w * h) ∧
        (positionFor w h n).col = c ∧ (positionFor w h n).row = r) := by
  have hdivlt : ∀ n, 1 ≤ n → n ≤ w * h → (n - 1) / w < h := by
    intro n h1 h2
    rw [Nat.div_lt_iff_lt_mul (by omega)]
    calc n - 1 < n := by omega
      _ ≤ w * h := h2
      _ = h * w := Nat.mul_comm w h
  have hlinear : ∀ n, 1 ≤ n → n ≤ w * h →
      (((n - 1) / w) % h) * w + (n - 1) % w = n - 1 := by
    intro n h1 h2
    rw [Nat.mod_eq_of_lt (hdivlt n h1 h2), Nat.mul_comm]
    exact Nat.div_add_mod (n - 1) w
  constructor
  · intro n h1 h2
    exact ⟨rfl, rfl, hlinear n h1 h2⟩
  · intro c r hc hr
    have hcol : (r * w + c + 1 - 1) % w = c := by
      rw [Nat.add_sub_cancel, Nat.add_comm (r * w) c, Nat.add_mul_mod_self_right]
      exact Nat.mod_eq_of_lt hc
    have hrow : ((r * w + c + 1 - 1) / w) % h = r := by
      rw [Nat.add_sub_cancel, Nat.add_comm (r * w) c,
        Nat.add_mul_div_right c r (by omega), Nat.div_eq_of_lt hc, Nat.zero_add]
      exact Nat.mod_eq_of_lt hr
    have hub : r * w + c + 1 ≤ w * h := by
      calc r * w + c + 1 = r * w + (c + 1) := by omega
        _ ≤ r * w + w := by omega
        _ = (r + 1) * w := (Nat.succ_mul r w).symm
        _ ≤ h * w := Nat.mul_le_mul_right w hr
        _ = w * h := Nat.mul_comm h w
    refine ⟨r * w + c + 1, ⟨⟨by omega, hub⟩, hcol, hrow⟩, ?_⟩
    intro m ⟨⟨hm1, hm2⟩, hmc, hmr⟩
    have hmc2 : (m - 1) % w = c := hmc
    have hmr2 : (m - 1) / w % h = r := hmr
    have hml : r * w + c = m - 1 := by
      have := hlinear m hm1 hm2
      rw [hmc2, hmr2] at this
      exact this
    omega

/-- Witness for claim C8 in the 3-by-2 grid: the facts at write count `n = 4`
and the unique write count painting cell `(col, row) = (1, 1)`. -/
theorem position_row_major_bijection_witness :
    ((positionFor 3 2 4).col = (4 - 1) % 3 ∧
      (positionFor 3 2 4).row = ((4 - 1) / 3) % 2 ∧
      (positionFor 3 2 4).row * 3 + (positionFor 3 2 4).col = 4 - 1) ∧
    (∃! n, (1 ≤ n ∧ n ≤ 3 * 2) ∧
      (positionFor 3 2 n).col = 1 ∧ (positionFor 3 2 n).row = 1) :=
  ⟨(position_row_major_bijection 3 2 (by decide) (by decide)).1 4 (by decide) (by decide),
    (position_row_major_bijection 3 2 (by decide) (by decide)).2 1 1 (by decide) (by decide)⟩

end PingLink
